import Mathlib

/-!
Verification of the facereg attendance backend.

Shallow embedding of the core logic of the repository:
  * regface/geolocation.py : calculate_distance (haversine, rounded to 2
    decimals), detect_location_from_coordinates (geofence resolver);
  * regface/views.py : FaceAttendanceView.post (face matching via the
    face_recognition library, the per-day check-in/check-out decision and
    the event write), GeneratePayrollView.post (payroll arithmetic);
  * regface/views.py : to_ist and the "today" window computation.

Numeric conventions: Python floats are modelled as real numbers; Python's
round(x, 2) (half-to-even at exact halves) is modelled exactly; Python's
int floor division is modelled by Int division (they agree for positive
divisors).  Instants are modelled as microseconds since the epoch (UTC),
the resolution of Python datetimes.
-/

namespace Facereg

/-! ## Python rounding: round(x, 2)

Python's builtin round rounds to the nearest value, half to even.
Defined generically so it serves both the real-valued distance model and
the rational-valued payroll model (Decimal.quantize("0.01") uses the same
ROUND_HALF_EVEN rule). -/

/-- Python's round(x) : nearest integer, ties to even.  `round` of Mathlib
rounds ties up, so the exact-half case is treated separately: for
x = k + 1/2, 2 * round (x / 2) is the nearest even integer. -/
def pyRound {α : Type} [LinearOrderedField α] [FloorRing α] (x : α) : ℤ :=
  if Int.fract x = 1 / 2 then 2 * round (x / 2) else round x

/-- Python's round(x, 2) : round to 2 decimal places, ties to even. -/
def round2 {α : Type} [LinearOrderedField α] [FloorRing α] (x : α) : α :=
  (pyRound (100 * x) : α) / 100

/-! ## Time model (views.py: to_ist, the today window)

An instant is an integer count of microseconds since the Unix epoch, in
UTC.  IST (Asia/Kolkata) is the fixed offset UTC+05:30 with no daylight
saving, so to_ist is "add 19800 seconds to the wall clock". -/

/-- A calendar day in microseconds. -/
def dayUs : ℤ := 86400000000

/-- The Asia/Kolkata offset (+05:30) in microseconds. -/
def istOffsetUs : ℤ := 19800000000

/-- Calendar date (as a day count since the epoch) of the IST wall-clock
reading of instant t: models to_ist(dt).date() of views.py.  Int division
here is Euclidean, which agrees with Python floor division for the
positive divisor dayUs. -/
def istDate (t : ℤ) : ℤ := (t + istOffsetUs) / dayUs

/-- Modelled from the spec: Django's settings.py (not under src/) supplies
settings.TIME_ZONE, the zone timezone.make_aware uses for the naive
datetimes datetime.combine(today, time.min/max) at views.py lines
431-432; spec section 6 fixes the deployment zone to Asia/Kolkata.  The
start of the query's IST day as a UTC instant: make_aware(combine(today,
datetime.min.time())). -/
def todayStartUs (now : ℤ) : ℤ := istDate now * dayUs - istOffsetUs

/-- End of the query's IST day as a UTC instant:
make_aware(combine(today, datetime.max.time())); datetime.max.time() is
23:59:59.999999, one microsecond before next midnight. -/
def todayEndUs (now : ℤ) : ℤ := todayStartUs now + (dayUs - 1)

/-- An AttendanceLog row (models.py): employee foreign key, timestamp
(auto_now_add), type ("checkin" or "checkout"). -/
structure LogRec where
  employeeId : ℕ
  timestamp : ℤ
  type : String
deriving DecidableEq

/-- Filter of views.py lines 434-436: AttendanceLog.objects.filter(
employee=matched_employee, timestamp__range=(today_start, today_end));
the range lookup is inclusive on both ends. -/
def logsToday (logs : List LogRec) (empId : ℕ) (now : ℤ) : List LogRec :=
  logs.filter (fun l =>
    decide (l.employeeId = empId) &&
    decide (todayStartUs now ≤ l.timestamp) &&
    decide (l.timestamp ≤ todayEndUs now))

/-! ## Attendance decision (views.py lines 437-461) -/

/-- has_checkin of line 437: any(log.type == "checkin" for log in logs_today). -/
def hasCheckin (logs : List LogRec) : Bool :=
  logs.any (fun l => decide (l.type = "checkin"))

/-- has_checkout of line 438. -/
def hasCheckout (logs : List LogRec) : Bool :=
  logs.any (fun l => decide (l.type = "checkout"))

/-- The three possible outcomes of the per-day state machine. -/
inductive Decision where
  | recordCheckin
  | recordCheckout
  | alreadyComplete
deriving DecidableEq

/-- Decision of views.py lines 440-448: if not has_checkin: check-in;
elif not has_checkout: check-out; else: already marked. -/
def attendanceDecision (logsOfToday : List LogRec) : Decision :=
  if hasCheckin logsOfToday = false then Decision.recordCheckin
  else if hasCheckout logsOfToday = false then Decision.recordCheckout
  else Decision.alreadyComplete

/-! ## Face matching (views.py lines 411-424, 466-471)

compare_faces and face_distance come from the third-party
face_recognition library: face_distance(known, q) is the list of
Euclidean norms ||k - q|| in input order, and compare_faces(known, q,
tolerance) is the list of booleans (face_distance <= tolerance).
Embeddings are fixed-length vectors (128 floats), modelled as real
lists of one common length. -/

/-- Euclidean distance between one known encoding and the query encoding:
numpy.linalg.norm(known - query). -/
noncomputable def faceDistance (known query : List ℝ) : ℝ :=
  Real.sqrt ((List.zipWith (fun a b => (a - b) ^ 2) known query).sum)

/-- face_recognition.compare_faces(known_encodings, uploaded_encoding,
tolerance): one boolean per known encoding, in input order; the
comparison is inclusive (distance <= tolerance). -/
noncomputable def compareFaces (known : List (List ℝ)) (query : List ℝ) (tolerance : ℝ) :
    List Bool :=
  known.map (fun k => decide (faceDistance k query ≤ tolerance))

/-- Confidence reported on success (views.py lines 466-471):
round(1 - face_distance([best], uploaded)[0], 2).  No clamping appears in
the source. -/
noncomputable def confidenceOf (d : ℝ) : ℝ := round2 (1 - d)

/-- Modelled from the spec (section 4.2), for comparison with
confidenceOf: "confidence (1 - distance, clamped to [0,1], rounded to
2 decimals)". -/
noncomputable def confidenceSpec (d : ℝ) : ℝ := round2 (max 0 (min 1 (1 - d)))

/-- An Employee row as FaceAttendanceView reads it (id, name,
face_encoding).  Names are modelled as already stripped of surrounding
whitespace, so the source's name.strip() is the identity on them. -/
structure EmployeeRec where
  id : ℕ
  name : String
  faceEncoding : List ℝ

/-- The four outcomes FaceAttendanceView.post can answer with: HTTP 400
"No face detected", HTTP 404 "Face not recognized", HTTP 200 "Already
marked", HTTP 200 success carrying the entry type, employee name and
confidence.  The source defines no separate empty-pool outcome. -/
inductive ScanOutcome where
  | noFaceDetected
  | faceNotRecognized
  | alreadyMarked (employee : String)
  | success (entryType : String) (employee : String) (confidence : ℝ)

/-- FaceAttendanceView.post (views.py lines 393-494), from the point the
uploaded encoding is known.  Arguments: the encoding extracted from the
upload (none when no face was found), the candidate employees in query
order, the stored attendance log, and the current instant.  Returns the
response outcome together with the list of AttendanceLog rows created by
the request (the write of line 463 happens exactly on the two success
branches).  The default employee passed to getD is never read: the index
matchList.indexOf true is in range whenever true is a member of matches. -/
noncomputable def faceAttendancePost (uploadedEncoding : Option (List ℝ))
    (employees : List EmployeeRec) (logs : List LogRec) (now : ℤ) :
    ScanOutcome × List LogRec :=
  match uploadedEncoding with
  | none => (ScanOutcome.noFaceDetected, [])
  | some enc =>
    let knownEncodings := employees.map (fun e => e.faceEncoding)
    let matchList := compareFaces knownEncodings enc (45 / 100)
    if true ∈ matchList then
      let bestMatchIndex := matchList.indexOf true
      let matchedEmployee := employees.getD bestMatchIndex ⟨0, "", []⟩
      let todays := logsToday logs matchedEmployee.id now
      let confidence := confidenceOf (faceDistance (knownEncodings.getD bestMatchIndex []) enc)
      match attendanceDecision todays with
      | Decision.recordCheckin =>
          (ScanOutcome.success "checkin" matchedEmployee.name confidence,
            [⟨matchedEmployee.id, now, "checkin"⟩])
      | Decision.recordCheckout =>
          (ScanOutcome.success "checkout" matchedEmployee.name confidence,
            [⟨matchedEmployee.id, now, "checkout"⟩])
      | Decision.alreadyComplete =>
          (ScanOutcome.alreadyMarked matchedEmployee.name, [])
    else (ScanOutcome.faceNotRecognized, [])

/-! ## Geodistance (geolocation.py lines 19-49) -/

/-- math.radians: degrees to radians. -/
noncomputable def radians (x : ℝ) : ℝ := x * Real.pi / 180

/-- The haversine great-circle distance of calculate_distance before its
final rounding (geolocation.py lines 36-44): R = 6371 km,
a = sin(dlat/2)^2 + cos(lat1) cos(lat2) sin(dlon/2)^2,
c = 2 asin(sqrt(a)), distance = R * c. -/
noncomputable def haversineKm (lat1 lon1 lat2 lon2 : ℝ) : ℝ :=
  6371 * (2 * Real.arcsin (Real.sqrt
    (Real.sin (radians (lat2 - lat1) / 2) ^ 2 +
      Real.cos (radians lat1) * Real.cos (radians lat2) *
        Real.sin (radians (lon2 - lon1) / 2) ^ 2)))

/-- calculate_distance (geolocation.py lines 19-49): float() parsing of
the four inputs is modelled by Option arguments (none stands for an
input that float() rejects, making the function return None through the
ValueError/TypeError handler); on parsable inputs the haversine distance
rounded to 2 decimal places is returned. -/
noncomputable def calculate_distance :
    Option ℝ → Option ℝ → Option ℝ → Option ℝ → Option ℝ
  | some lat1, some lon1, some lat2, some lon2 =>
      some (round2 (haversineKm lat1 lon1 lat2 lon2))
  | _, _, _, _ => none

/-! ## Geofence resolver (geolocation.py lines 94-141) -/

/-- A Location row as the resolver reads it: a name and optional
coordinates (None coordinates are skipped by the loop; objects lacking
the attributes entirely are skipped the same way). -/
structure LocationObj where
  name : String
  latitude : Option ℝ
  longitude : Option ℝ

/-- The candidate loop of detect_location_from_coordinates (lines
116-130), with closest_location and closest_distance as accumulators
(closest_distance starts at radius_km).  A candidate replaces the
current closest when its distance satisfies distance <= closest_distance
— inclusively, so of several equally near candidates the last one
encountered ends up selected. -/
noncomputable def detectClosest (lat lon : ℝ) :
    List LocationObj → Option LocationObj → ℝ → Option LocationObj × ℝ
  | [], closestLoc, closestDist => (closestLoc, closestDist)
  | loc :: rest, closestLoc, closestDist =>
    match loc.latitude, loc.longitude with
    | some la, some lo =>
      match calculate_distance (some lat) (some lon) (some la) (some lo) with
      | some d =>
          if d ≤ closestDist then detectClosest lat lon rest (some loc) d
          else detectClosest lat lon rest closestLoc closestDist
      | none => detectClosest lat lon rest closestLoc closestDist
    | _, _ => detectClosest lat lon rest closestLoc closestDist

/-- detect_location_from_coordinates (geolocation.py lines 94-141):
returns (closest location, its distance) when some candidate lies within
radius, and (None, None) when none does or when latitude/longitude is
missing (None inputs model both None and unparsable values, which the
surrounding try/except also turns into (None, None)). -/
noncomputable def detect_location_from_coordinates (lat lon : Option ℝ)
    (objs : List LocationObj) (radius : ℝ) : Option LocationObj × Option ℝ :=
  match lat, lon with
  | some la, some lo =>
    match detectClosest la lo objs none radius with
    | (some l, d) => (some l, some d)
    | (none, _) => (none, none)
  | _, _ => (none, none)

/-! ## Payroll generation (views.py lines 824-881) -/

/-- An Employee row as GeneratePayrollView reads it: id and the two
payroll parameters (emp.base_salary or 0 / emp.deduction_per_day or 0 is
modelled by the fields already holding 0 for a null column). -/
structure PayrollEmployee where
  id : ℕ
  baseSalary : ℚ
  deductionPerDay : ℚ

/-- The attendance_map dict of views.py lines 842-845: each log in the
month contributes the key (employee_id, to_ist(timestamp).date()) with
value "P".  Every value written is "P"; no code path writes "A".  The
dict is modelled as its entry list: all values are equal, so overwrites
of the same key do not matter for lookups. -/
def attendanceMap (logs : List LogRec) : List ((ℕ × ℤ) × String) :=
  logs.map (fun l => ((l.employeeId, istDate l.timestamp), "P"))

/-- attendance_map.get(key): the value stored for the key, if any. -/
def mapGet (m : List ((ℕ × ℤ) × String)) (k : ℕ × ℤ) : Option String :=
  (m.find? (fun e => decide (e.1 = k))).map (fun e => e.2)

/-- One PayrollRecord row created by views.py lines 868-879. -/
structure PayrollRecordRec where
  employeeId : ℕ
  presentDays : ℕ
  absentDays : ℕ
  baseSalary : ℚ
  deductionPerDay : ℚ
  deductions : ℚ
  pfDeduction : ℚ
  esiDeduction : ℚ
  netPay : ℚ

/-- GeneratePayrollView.post (views.py lines 847-879), per employee:
present counts the month's days whose attendance_map entry is "P",
absent counts those whose entry is "A", deductions = absent *
deduction_per_day, pf = base * 0.12 and esi = base * 0.0175 each
quantized to 2 decimals (Decimal quantize, ROUND_HALF_EVEN), net pay =
base - deductions - pf - esi.  monthDays is the month's list of calendar
days in the same day encoding istDate uses. -/
def generatePayroll (employees : List PayrollEmployee) (logs : List LogRec)
    (monthDays : List ℤ) : List PayrollRecordRec :=
  let m := attendanceMap logs
  employees.map (fun emp =>
    let present := (monthDays.filter
      (fun d => decide (mapGet m (emp.id, d) = some "P"))).length
    let absent := (monthDays.filter
      (fun d => decide (mapGet m (emp.id, d) = some "A"))).length
    let deductions := (absent : ℚ) * emp.deductionPerDay
    let pf := round2 (emp.baseSalary * (12 / 100))
    let esi := round2 (emp.baseSalary * (175 / 10000))
    { employeeId := emp.id
      presentDays := present
      absentDays := absent
      baseSalary := emp.baseSalary
      deductionPerDay := emp.deductionPerDay
      deductions := deductions
      pfDeduction := pf
      esiDeduction := esi
      netPay := emp.baseSalary - deductions - pf - esi })

/-! ## Helper lemmas: rounding -/

lemma pyRound_half {α : Type} [LinearOrderedField α] [FloorRing α] (x : α)
    (h : Int.fract x = 1 / 2) : |(pyRound x : α) - x| ≤ 1 / 2 := by
  have hx : x = (⌊x⌋ : α) + 1 / 2 := by
    have := Int.floor_add_fract x
    rw [h] at this
    linarith
  rw [pyRound, if_pos h]
  rcases Int.even_or_odd ⌊x⌋ with ⟨m, hm⟩ | ⟨m, hm⟩
  · have hx2 : x / 2 = (m : α) + 1 / 4 := by
      rw [hx, hm]
      push_cast
      ring
    have hr : round (x / 2) = m := by
      rw [round_eq, hx2, add_assoc, Int.floor_int_add]
      norm_num [Int.floor_eq_zero_iff, Set.mem_Ico]
    rw [hr, hx, hm]
    push_cast
    rw [abs_le]
    constructor <;> linarith
  · have hx2 : x / 2 = (m : α) + 3 / 4 := by
      rw [hx, hm]
      push_cast
      ring
    have hr : round (x / 2) = m + 1 := by
      rw [round_eq, hx2, add_assoc, Int.floor_int_add]
      norm_num [Int.floor_eq_iff]
    rw [hr, hx, hm]
    push_cast
    rw [abs_le]
    constructor <;> linarith

lemma abs_pyRound_sub_le {α : Type} [LinearOrderedField α] [FloorRing α] (x : α) :
    |(pyRound x : α) - x| ≤ 1 / 2 := by
  by_cases h : Int.fract x = 1 / 2
  · exact pyRound_half x h
  · rw [pyRound, if_neg h, abs_sub_comm]
    exact abs_sub_round x

lemma abs_round2_sub_le {α : Type} [LinearOrderedField α] [FloorRing α] (x : α) :
    |round2 x - x| ≤ 1 / 200 := by
  have h := abs_pyRound_sub_le (100 * x)
  rw [round2]
  have : (pyRound (100 * x) : α) / 100 - x = ((pyRound (100 * x) : α) - 100 * x) / 100 := by
    ring
  rw [this, abs_div]
  rw [abs_of_pos (show (0:α) < 100 by norm_num)]
  linarith [abs_nonneg ((pyRound (100 * x) : α) - 100 * x)]

lemma round2_le_one {α : Type} [LinearOrderedField α] [FloorRing α] {x : α}
    (h : x ≤ 1) : round2 x ≤ 1 := by
  have hb := abs_pyRound_sub_le (100 * x)
  rw [abs_le] at hb
  have h1 : (pyRound (100 * x) : α) ≤ 100 * x + 1 / 2 := by linarith [hb.2]
  have h2 : (pyRound (100 * x) : α) < 101 := by linarith
  have h3 : pyRound (100 * x) < 101 := by exact_mod_cast h2
  have h4 : pyRound (100 * x) ≤ 100 := by omega
  rw [round2, div_le_one (show (0:α) < 100 by norm_num)]
  exact_mod_cast h4

lemma round2_nonneg {α : Type} [LinearOrderedField α] [FloorRing α] {x : α}
    (h : 0 ≤ x) : 0 ≤ round2 x := by
  have hb := abs_pyRound_sub_le (100 * x)
  rw [abs_le] at hb
  have h1 : 100 * x - 1 / 2 ≤ (pyRound (100 * x) : α) := by linarith [hb.1]
  have h2 : (-1 : α) < (pyRound (100 * x) : α) := by linarith
  have h3 : (-1 : ℤ) < pyRound (100 * x) := by exact_mod_cast h2
  have h4 : (0 : ℤ) ≤ pyRound (100 * x) := by omega
  rw [round2]
  have h5 : (0 : α) ≤ (pyRound (100 * x) : α) := by exact_mod_cast h4
  positivity

lemma round2_eq_of_eq_intCast {α : Type} [LinearOrderedField α] [FloorRing α]
    (x : α) (n : ℤ) (h : 100 * x = (n : α)) : round2 x = (n : α) / 100 := by
  rw [round2, h, pyRound, Int.fract_intCast, if_neg (by norm_num), round_intCast]

lemma round2_eq_of_round {α : Type} [LinearOrderedField α] [FloorRing α]
    (x : α) (n : ℤ) (h1 : Int.fract (100 * x) ≠ 1 / 2)
    (h2 : round (100 * x) = n) : round2 x = (n : α) / 100 := by
  rw [round2, pyRound, if_neg h1, h2]

/-! ## Helper lemmas: permutations and any -/

lemma perm_any_eq {α : Type} (p : α → Bool) {l l' : List α} (h : l.Perm l') :
    l.any p = l'.any p := by
  cases hb : l'.any p
  · rw [Bool.eq_false_iff]
    intro hc
    rw [List.any_eq_true] at hc
    obtain ⟨x, hx, hp⟩ := hc
    have : l'.any p = true := List.any_eq_true.mpr ⟨x, h.mem_iff.mp hx, hp⟩
    rw [hb] at this
    exact Bool.false_ne_true this
  · rw [List.any_eq_true] at hb ⊢
    obtain ⟨x, hx, hp⟩ := hb
    exact ⟨x, h.mem_iff.mpr hx, hp⟩

/-! ## C2: the today window buckets events by their own IST day -/

lemma today_window_iff_same_ist_date (t now : ℤ) :
    (todayStartUs now ≤ t ∧ t ≤ todayEndUs now) ↔ istDate t = istDate now := by
  simp only [todayStartUs, todayEndUs, istDate, dayUs, istOffsetUs]
  omega

/-- C2: an event belongs to "today's events" of an attendance scan
exactly when it belongs to the matched employee and its own timestamp
falls on the same Asia/Kolkata calendar day as the scan instant — the
window compares each stored timestamp to the IST midnight-to-midnight
range, so day membership is decided by the event's own IST date, not
the day the query runs.  Concretely (second and third conjuncts): an
event at 23:59 IST (timestamp 66540000000, IST day 0 of the epoch) is
not among today's events of a scan at 00:01 IST the next day (instant
66660000000, IST day 1), so it does not block a new check-in. -/
theorem C2_logsToday_same_ist_day :
    (∀ (logs : List LogRec) (empId : ℕ) (now : ℤ) (l : LogRec),
      l ∈ logsToday logs empId now ↔
        l ∈ logs ∧ l.employeeId = empId ∧ istDate l.timestamp = istDate now) ∧
    (⟨7, 66540000000, "checkin"⟩ : LogRec) ∉
      logsToday [⟨7, 66540000000, "checkin"⟩] 7 66660000000 ∧
    istDate 66540000000 + 1 = istDate 66660000000 := by
  refine ⟨?_, by decide, by decide⟩
  intro logs empId now l
  simp only [logsToday, List.mem_filter, Bool.and_eq_true, decide_eq_true_eq]
  constructor
  · rintro ⟨hmem, ⟨hid, h1⟩, h2⟩
    exact ⟨hmem, hid, (today_window_iff_same_ist_date _ _).mp ⟨h1, h2⟩⟩
  · rintro ⟨hmem, hid, hday⟩
    have hw := (today_window_iff_same_ist_date l.timestamp now).mpr hday
    exact ⟨hmem, ⟨hid, hw.1⟩, hw.2⟩

/-! ## C3: the decision depends only on which kinds are present -/

/-- C3: the check-in/check-out decision is a function of which event
kinds are present among today's events: an empty list gives a check-in,
presence of a check-in without a check-out gives a check-out, presence
of both gives the already-complete rejection, and permuting the event
list never changes the decision.  The last two conjuncts exercise the
check-out and already-complete branches on concrete lists. -/
theorem C3_decision_from_kind_presence :
    attendanceDecision [] = Decision.recordCheckin ∧
    (∀ lt : List LogRec, hasCheckin lt = true → hasCheckout lt = false →
      attendanceDecision lt = Decision.recordCheckout) ∧
    (∀ lt : List LogRec, hasCheckin lt = true → hasCheckout lt = true →
      attendanceDecision lt = Decision.alreadyComplete) ∧
    (∀ lt lt' : List LogRec, lt.Perm lt' →
      attendanceDecision lt = attendanceDecision lt') ∧
    attendanceDecision [⟨7, 0, "checkin"⟩] = Decision.recordCheckout ∧
    attendanceDecision [⟨7, 1, "checkout"⟩, ⟨7, 0, "checkin"⟩] =
      Decision.alreadyComplete := by
  refine ⟨by decide, ?_, ?_, ?_, by decide, by decide⟩
  · intro lt h1 h2
    simp [attendanceDecision, h1, h2]
  · intro lt h1 h2
    simp [attendanceDecision, h1, h2]
  · intro lt lt' h
    unfold attendanceDecision hasCheckin hasCheckout
    rw [perm_any_eq (fun l => decide (l.type = "checkin")) h,
      perm_any_eq (fun l => decide (l.type = "checkout")) h]

/-! ## C4: one write on success, zero writes otherwise -/

/-- C4: per scan, the attendance log write set is empty on the
no-face-detected, face-not-recognized and already-marked outcomes, has
exactly one element on a success outcome, and in all cases is either
empty or a single write. -/
theorem C4_writes_exactly_on_success :
    ∀ (enc : Option (List ℝ)) (emps : List EmployeeRec) (logs : List LogRec)
      (now : ℤ),
      ((faceAttendancePost enc emps logs now).1 = ScanOutcome.noFaceDetected →
        (faceAttendancePost enc emps logs now).2 = []) ∧
      ((faceAttendancePost enc emps logs now).1 = ScanOutcome.faceNotRecognized →
        (faceAttendancePost enc emps logs now).2 = []) ∧
      (∀ e, (faceAttendancePost enc emps logs now).1 = ScanOutcome.alreadyMarked e →
        (faceAttendancePost enc emps logs now).2 = []) ∧
      (∀ t e c, (faceAttendancePost enc emps logs now).1 = ScanOutcome.success t e c →
        (faceAttendancePost enc emps logs now).2.length = 1) ∧
      ((faceAttendancePost enc emps logs now).2 = [] ∨
        (faceAttendancePost enc emps logs now).2.length = 1) := by
  intro enc emps logs now
  rcases enc with _ | enc
  · simp [faceAttendancePost]
  · simp only [faceAttendancePost]
    by_cases hm : true ∈ compareFaces (emps.map fun e => e.faceEncoding) enc (45 / 100)
    · simp only [if_pos hm]
      rcases hD : attendanceDecision (logsToday logs
          (emps.getD ((compareFaces (emps.map fun e => e.faceEncoding) enc
            (45 / 100)).indexOf true) ⟨0, "", []⟩).id now) with _ | _ | _ <;>
        simp [hD]
    · simp [if_neg hm]

/-! ## C8: the empty candidate pool -/

/-- C8 (amended): with a valid uploaded encoding and an empty employee
pool, the scan neither raises nor writes: compare_faces of an empty list
is the empty list, so the handler falls through to the same
"Face not recognized" 404 response used for a below-threshold face; the
source defines no separate empty-pool outcome (ScanOutcome has no such
constructor). -/
theorem C8_empty_pool_gives_not_recognized :
    ∀ (enc : List ℝ) (logs : List LogRec) (now : ℤ),
      faceAttendancePost (some enc) [] logs now =
        (ScanOutcome.faceNotRecognized, []) := by
  intro enc logs now
  simp [faceAttendancePost, compareFaces]

/-- C8 counterexample: a concrete scan with a valid encoding against
zero registered employees produces exactly the FaceNotRecognized
outcome (the same one an unrecognized face gets), not a distinct
empty-pool error. -/
theorem C8_counterexample_empty_pool_is_not_distinct :
    faceAttendancePost (some [0]) [] [] 0 = (ScanOutcome.faceNotRecognized, []) := by
  simp [faceAttendancePost, compareFaces]

/-! ## C10: payroll absences are never counted -/

lemma attendanceMap_no_absent (logs : List LogRec) (k : ℕ × ℤ) :
    mapGet (attendanceMap logs) k ≠ some "A" := by
  intro hk
  rw [mapGet] at hk
  obtain ⟨e, hfind, he2⟩ := Option.map_eq_some'.mp hk
  have hmem := List.mem_of_find?_eq_some hfind
  rw [attendanceMap] at hmem
  obtain ⟨l, _, hl⟩ := List.mem_map.mp hmem
  rw [← hl] at he2
  simp at he2

/-- C10: every payroll record generated has absent_days = 0 and
deductions = 0, whatever the month's logs are, because the attendance
map only ever stores "P" and the absent count looks for "A"; net pay is
therefore base salary minus only the PF and ESI deductions. -/
theorem C10_payroll_absent_always_zero :
    ∀ (emps : List PayrollEmployee) (logs : List LogRec) (monthDays : List ℤ)
      (r : PayrollRecordRec), r ∈ generatePayroll emps logs monthDays →
      r.absentDays = 0 ∧ r.deductions = 0 ∧
      r.netPay = r.baseSalary - r.pfDeduction - r.esiDeduction := by
  intro emps logs monthDays r hr
  simp only [generatePayroll] at hr
  obtain ⟨emp, _, rfl⟩ := List.mem_map.mp hr
  have hfil : monthDays.filter
      (fun d => decide (mapGet (attendanceMap logs) (emp.id, d) = some "A")) = [] := by
    rw [List.filter_eq_nil_iff]
    intro d _
    simp [attendanceMap_no_absent]
  refine ⟨?_, ?_, ?_⟩
  · simp [hfil]
  · simp [hfil]
  · simp only [hfil, List.length_nil, Nat.cast_zero, zero_mul]
    ring

/-- C10 witness: the theorem applied to a concrete run — one employee
with base salary 100 and per-day deduction 10, an empty log, a
one-day month. -/
theorem C10_payroll_witness :
    ((generatePayroll [⟨7, 100, 10⟩] [] [0]).getD 0
        ⟨0, 0, 0, 0, 0, 0, 0, 0, 0⟩).absentDays = 0 ∧
    ((generatePayroll [⟨7, 100, 10⟩] [] [0]).getD 0
        ⟨0, 0, 0, 0, 0, 0, 0, 0, 0⟩).deductions = 0 ∧
    ((generatePayroll [⟨7, 100, 10⟩] [] [0]).getD 0
        ⟨0, 0, 0, 0, 0, 0, 0, 0, 0⟩).netPay =
      ((generatePayroll [⟨7, 100, 10⟩] [] [0]).getD 0
        ⟨0, 0, 0, 0, 0, 0, 0, 0, 0⟩).baseSalary -
      ((generatePayroll [⟨7, 100, 10⟩] [] [0]).getD 0
        ⟨0, 0, 0, 0, 0, 0, 0, 0, 0⟩).pfDeduction -
      ((generatePayroll [⟨7, 100, 10⟩] [] [0]).getD 0
        ⟨0, 0, 0, 0, 0, 0, 0, 0, 0⟩).esiDeduction :=
  C10_payroll_absent_always_zero [⟨7, 100, 10⟩] [] [0] _ (by simp [generatePayroll])

/-! ## Helper lemmas: the haversine formula -/

lemma radians_sub_neg (x y : ℝ) : radians (x - y) = -(radians (y - x)) := by
  unfold radians
  ring

lemma haversineKm_symm (lat1 lon1 lat2 lon2 : ℝ) :
    haversineKm lat1 lon1 lat2 lon2 = haversineKm lat2 lon2 lat1 lon1 := by
  have h1 : ∀ u v : ℝ,
      Real.sin (radians (u - v) / 2) ^ 2 = Real.sin (radians (v - u) / 2) ^ 2 := by
    intro u v
    rw [radians_sub_neg u v, neg_div, Real.sin_neg]
    ring
  unfold haversineKm
  rw [h1 lat2 lat1, h1 lon2 lon1,
    mul_comm (Real.cos (radians lat1)) (Real.cos (radians lat2))]

lemma haversineKm_self (lat lon : ℝ) : haversineKm lat lon lat lon = 0 := by
  simp [haversineKm, radians, sub_self]

/-- On the equator, moving x km east: the haversine formula returns
exactly x for the longitude offset x * 180 / (6371 π) degrees (for small
nonnegative x, so that the half angle stays inside [0, π/2]). -/
lemma haversineKm_equator (x : ℝ) (h0 : 0 ≤ x) (h1 : x ≤ 10) :
    haversineKm 0 0 0 (x * 180 / (6371 * Real.pi)) = x := by
  have hpi : 0 < Real.pi := Real.pi_pos
  have hpi3 : 3 < Real.pi := Real.pi_gt_three
  have harg : radians (x * 180 / (6371 * Real.pi) - 0) = x / 6371 := by
    unfold radians
    field_simp
    ring
  have h00 : radians (0 - 0) = 0 := by simp [radians]
  have h0r : radians 0 = 0 := by simp [radians]
  unfold haversineKm
  rw [h00, h0r, harg]
  have hsn : 0 ≤ Real.sin (x / 6371 / 2) :=
    Real.sin_nonneg_of_nonneg_of_le_pi (by positivity) (by nlinarith)
  simp only [zero_div, Real.sin_zero, Real.cos_zero, one_mul, zero_add,
    ne_eq, OfNat.ofNat_ne_zero, not_false_eq_true, zero_pow]
  rw [Real.sqrt_sq_eq_abs, abs_of_nonneg hsn,
    Real.arcsin_sin (by nlinarith) (by nlinarith)]
  ring

/-! ## C9: distance symmetry, zero on equal points, sentinel on bad input -/

/-- C9: for parsable inputs calculate_distance is symmetric in its two
coordinate pairs and returns 0 for two identical points, and whenever
any of the four inputs fails to parse (modelled as none) the function
returns the None sentinel rather than a distance. -/
theorem C9_distance_symm_zero_sentinel :
    (∀ lat1 lon1 lat2 lon2 : ℝ,
      calculate_distance (some lat1) (some lon1) (some lat2) (some lon2) =
        calculate_distance (some lat2) (some lon2) (some lat1) (some lon1)) ∧
    (∀ lat lon : ℝ,
      calculate_distance (some lat) (some lon) (some lat) (some lon) = some 0) ∧
    (∀ a b c d : Option ℝ, (a = none ∨ b = none ∨ c = none ∨ d = none) →
      calculate_distance a b c d = none) := by
  refine ⟨?_, ?_, ?_⟩
  · intro lat1 lon1 lat2 lon2
    simp only [calculate_distance, haversineKm_symm lat1 lon1 lat2 lon2]
  · intro lat lon
    have hz : round2 (haversineKm lat lon lat lon) = ((0 : ℤ) : ℝ) / 100 :=
      round2_eq_of_eq_intCast _ 0 (by rw [haversineKm_self]; norm_num)
    simp only [calculate_distance, hz]
    norm_num
  · intro a b c d h
    rcases a with _ | a <;> rcases b with _ | b <;> rcases c with _ | c <;>
      rcases d with _ | d <;> simp [calculate_distance] <;> simp at h

/-! ## Helper lemmas: concrete round2 values -/

lemma round2_004 : round2 ((4 : ℝ) / 100) = 4 / 100 := by
  have h := round2_eq_of_eq_intCast ((4 : ℝ) / 100) 4 (by norm_num)
  simpa using h

lemma round2_005 : round2 ((5 : ℝ) / 100) = 5 / 100 := by
  have h := round2_eq_of_eq_intCast ((5 : ℝ) / 100) 5 (by norm_num)
  simpa using h

lemma round2_003 : round2 ((3 : ℝ) / 100) = 3 / 100 := by
  have h := round2_eq_of_eq_intCast ((3 : ℝ) / 100) 3 (by norm_num)
  simpa using h

/-- Rounding 0.0501 km (50.1 m) to 2 decimal places gives 0.05 km. -/
lemma round2_00501 : round2 ((501 : ℝ) / 10000) = 5 / 100 := by
  have hx : (100 : ℝ) * (501 / 10000) = 501 / 100 := by norm_num
  have hfl : ⌊(501 : ℝ) / 100⌋ = 5 := by
    rw [Int.floor_eq_iff]
    constructor
    · norm_num
    · norm_num
  have hfr : Int.fract ((100 : ℝ) * (501 / 10000)) ≠ 1 / 2 := by
    rw [hx, Int.fract, hfl]
    norm_num
  have hrd : round ((100 : ℝ) * (501 / 10000)) = 5 := by
    rw [hx, round_eq]
    rw [show (501 : ℝ) / 100 + 1 / 2 = 551 / 100 by norm_num]
    rw [Int.floor_eq_iff]
    constructor
    · norm_num
    · norm_num
  have h := round2_eq_of_round ((501 : ℝ) / 10000) 5 hfr hrd
  simpa using h

/-- Rounding 0.056 km (56 m) to 2 decimal places gives 0.06 km. -/
lemma round2_0056 : round2 ((7 : ℝ) / 125) = 6 / 100 := by
  have hx : (100 : ℝ) * (7 / 125) = 28 / 5 := by norm_num
  have hfl : ⌊(28 : ℝ) / 5⌋ = 5 := by
    rw [Int.floor_eq_iff]
    constructor
    · norm_num
    · norm_num
  have hfr : Int.fract ((100 : ℝ) * (7 / 125)) ≠ 1 / 2 := by
    rw [hx, Int.fract, hfl]
    norm_num
  have hrd : round ((100 : ℝ) * (7 / 125)) = 6 := by
    rw [hx, round_eq]
    rw [show (28 : ℝ) / 5 + 1 / 2 = 61 / 10 by norm_num]
    rw [Int.floor_eq_iff]
    constructor
    · norm_num
    · norm_num
  have h := round2_eq_of_round ((7 : ℝ) / 125) 6 hfr hrd
  simpa using h

/-- calculate_distance from the origin to the equatorial point x km east. -/
lemma calc_dist_equator (x : ℝ) (h0 : 0 ≤ x) (h1 : x ≤ 10) :
    calculate_distance (some 0) (some 0) (some 0)
      (some (x * 180 / (6371 * Real.pi))) = some (round2 x) := by
  simp only [calculate_distance, haversineKm_equator x h0 h1]

/-! ## Helper lemmas: the geofence candidate loop -/

lemma detectClosest_le (lat lon : ℝ) (objs : List LocationObj)
    (acc : Option LocationObj) (cd : ℝ) :
    (detectClosest lat lon objs acc cd).2 ≤ cd := by
  induction objs generalizing acc cd with
  | nil => simp [detectClosest]
  | cons x rest ih =>
    rcases hla : x.latitude with _ | la <;> rcases hlo : x.longitude with _ | lo
    · simpa [detectClosest, hla, hlo] using ih acc cd
    · simpa [detectClosest, hla, hlo] using ih acc cd
    · simpa [detectClosest, hla, hlo] using ih acc cd
    · simp only [detectClosest, hla, hlo, calculate_distance]
      by_cases hle : round2 (haversineKm lat lon la lo) ≤ cd
      · rw [if_pos hle]
        exact le_trans (ih (some x) _) hle
      · rw [if_neg hle]
        exact ih acc cd

lemma detectClosest_min (lat lon : ℝ) (objs : List LocationObj)
    (acc : Option LocationObj) (cd : ℝ) :
    ∀ c ∈ objs, ∀ la lo, c.latitude = some la → c.longitude = some lo →
      (detectClosest lat lon objs acc cd).2 ≤ round2 (haversineKm lat lon la lo) := by
  induction objs generalizing acc cd with
  | nil => simp
  | cons x rest ih =>
    intro c hc la lo hcla hclo
    rcases List.mem_cons.mp hc with rfl | hcr
    · rw [detectClosest, hcla, hclo]
      simp only [calculate_distance]
      by_cases hle : round2 (haversineKm lat lon la lo) ≤ cd
      · rw [if_pos hle]
        exact detectClosest_le lat lon rest (some c) _
      · rw [if_neg hle]
        exact le_trans (detectClosest_le lat lon rest acc cd) (le_of_not_le hle)
    · rcases hla : x.latitude with _ | la' <;> rcases hlo : x.longitude with _ | lo'
      · simpa [detectClosest, hla, hlo] using ih acc cd c hcr la lo hcla hclo
      · simpa [detectClosest, hla, hlo] using ih acc cd c hcr la lo hcla hclo
      · simpa [detectClosest, hla, hlo] using ih acc cd c hcr la lo hcla hclo
      · simp only [detectClosest, hla, hlo, calculate_distance]
        by_cases hle : round2 (haversineKm lat lon la' lo') ≤ cd
        · rw [if_pos hle]
          exact ih (some x) _ c hcr la lo hcla hclo
        · rw [if_neg hle]
          exact ih acc cd c hcr la lo hcla hclo

lemma detectClosest_result (lat lon : ℝ) (objs : List LocationObj)
    (acc : Option LocationObj) (cd : ℝ) :
    ((detectClosest lat lon objs acc cd).1 = acc ∧
      (detectClosest lat lon objs acc cd).2 = cd) ∨
    ∃ c ∈ objs, ∃ la lo, c.latitude = some la ∧ c.longitude = some lo ∧
      (detectClosest lat lon objs acc cd).1 = some c ∧
      (detectClosest lat lon objs acc cd).2 = round2 (haversineKm lat lon la lo) := by
  induction objs generalizing acc cd with
  | nil => simp [detectClosest]
  | cons x rest ih =>
    rcases hla : x.latitude with _ | la <;> rcases hlo : x.longitude with _ | lo
    · rcases (by simpa [detectClosest, hla, hlo] using ih acc cd :
        ((detectClosest lat lon (x :: rest) acc cd).1 = acc ∧
          (detectClosest lat lon (x :: rest) acc cd).2 = cd) ∨
        ∃ c ∈ rest, ∃ la' lo', c.latitude = some la' ∧ c.longitude = some lo' ∧
          (detectClosest lat lon (x :: rest) acc cd).1 = some c ∧
          (detectClosest lat lon (x :: rest) acc cd).2 =
            round2 (haversineKm lat lon la' lo')) with h | ⟨c, hc, h⟩
      · exact Or.inl h
      · exact Or.inr ⟨c, List.mem_cons_of_mem x hc, h⟩
    · rcases (by simpa [detectClosest, hla, hlo] using ih acc cd :
        ((detectClosest lat lon (x :: rest) acc cd).1 = acc ∧
          (detectClosest lat lon (x :: rest) acc cd).2 = cd) ∨
        ∃ c ∈ rest, ∃ la' lo', c.latitude = some la' ∧ c.longitude = some lo' ∧
          (detectClosest lat lon (x :: rest) acc cd).1 = some c ∧
          (detectClosest lat lon (x :: rest) acc cd).2 =
            round2 (haversineKm lat lon la' lo')) with h | ⟨c, hc, h⟩
      · exact Or.inl h
      · exact Or.inr ⟨c, List.mem_cons_of_mem x hc, h⟩
    · rcases (by simpa [detectClosest, hla, hlo] using ih acc cd :
        ((detectClosest lat lon (x :: rest) acc cd).1 = acc ∧
          (detectClosest lat lon (x :: rest) acc cd).2 = cd) ∨
        ∃ c ∈ rest, ∃ la' lo', c.latitude = some la' ∧ c.longitude = some lo' ∧
          (detectClosest lat lon (x :: rest) acc cd).1 = some c ∧
          (detectClosest lat lon (x :: rest) acc cd).2 =
            round2 (haversineKm lat lon la' lo')) with h | ⟨c, hc, h⟩
      · exact Or.inl h
      · exact Or.inr ⟨c, List.mem_cons_of_mem x hc, h⟩
    · rw [detectClosest, hla, hlo]
      simp only [calculate_distance]
      by_cases hle : round2 (haversineKm lat lon la lo) ≤ cd
      · rw [if_pos hle]
        rcases ih (some x) (round2 (haversineKm lat lon la lo)) with ⟨h1, h2⟩ | ⟨c, hc, h⟩
        · exact Or.inr ⟨x, List.mem_cons_self x rest, la, lo, hla, hlo, h1, h2⟩
        · exact Or.inr ⟨c, List.mem_cons_of_mem x hc, h⟩
      · rw [if_neg hle]
        rcases ih acc cd with h | ⟨c, hc, h⟩
        · exact Or.inl h
        · exact Or.inr ⟨c, List.mem_cons_of_mem x hc, h⟩

lemma detectClosest_append (lat lon : ℝ) (xs ys : List LocationObj)
    (acc : Option LocationObj) (cd : ℝ) :
    detectClosest lat lon (xs ++ ys) acc cd =
      detectClosest lat lon ys (detectClosest lat lon xs acc cd).1
        (detectClosest lat lon xs acc cd).2 := by
  induction xs generalizing acc cd with
  | nil => simp [detectClosest]
  | cons x rest ih =>
    rcases hla : x.latitude with _ | la <;> rcases hlo : x.longitude with _ | lo
    · simp only [List.cons_append, detectClosest, hla, hlo]
      exact ih acc cd
    · simp only [List.cons_append, detectClosest, hla, hlo]
      exact ih acc cd
    · simp only [List.cons_append, detectClosest, hla, hlo]
      exact ih acc cd
    · simp only [List.cons_append, detectClosest, hla, hlo, calculate_distance]
      by_cases hle : round2 (haversineKm lat lon la lo) ≤ cd
      · rw [if_pos hle, if_pos hle]
        exact ih (some x) _
      · rw [if_neg hle, if_neg hle]
        exact ih acc cd

lemma detect_singleton_in (nm : String) (x d radius : ℝ)
    (hd : calculate_distance (some 0) (some 0) (some 0) (some x) = some d)
    (hle : d ≤ radius) :
    detect_location_from_coordinates (some 0) (some 0)
      [⟨nm, some 0, some x⟩] radius = (some ⟨nm, some 0, some x⟩, some d) := by
  simp [detect_location_from_coordinates, detectClosest, hd, hle]

lemma detect_singleton_out (nm : String) (x d radius : ℝ)
    (hd : calculate_distance (some 0) (some 0) (some 0) (some x) = some d)
    (hgt : ¬ d ≤ radius) :
    detect_location_from_coordinates (some 0) (some 0)
      [⟨nm, some 0, some x⟩] radius = (none, none) := by
  simp [detect_location_from_coordinates, detectClosest, hd, hgt]

/-! ## C5: nearest candidate within the radius; ties go to the last -/

/-- C5 counterexample: two candidates A and B at the identical distance
0.04 km from the query point (both within the 0.05 km radius, B listed
second).  The resolver returns B, the last-encountered candidate, not
the first-encountered A claimed by the spec: the loop's inclusive
comparison distance <= closest_distance lets an equal later candidate
replace an equal earlier one. -/
theorem C5_counterexample_tie_returns_last :
    detect_location_from_coordinates (some 0) (some 0)
      [⟨"A", some 0, some (4 / 100 * 180 / (6371 * Real.pi))⟩,
        ⟨"B", some 0, some (4 / 100 * 180 / (6371 * Real.pi))⟩] (5 / 100) =
      (some ⟨"B", some 0, some (4 / 100 * 180 / (6371 * Real.pi))⟩,
        some (4 / 100)) ∧
    (⟨"B", some 0, some (4 / 100 * 180 / (6371 * Real.pi))⟩ : LocationObj) ≠
      ⟨"A", some 0, some (4 / 100 * 180 / (6371 * Real.pi))⟩ := by
  have hd : calculate_distance (some 0) (some 0) (some 0)
      (some (4 / 100 * 180 / (6371 * Real.pi))) = some (4 / 100) := by
    rw [calc_dist_equator (4 / 100) (by norm_num) (by norm_num), round2_004]
  constructor
  · have h1 : ((4 : ℝ) / 100) ≤ 5 / 100 := by norm_num
    simp [detect_location_from_coordinates, detectClosest, hd, h1]
  · intro h
    have hn := congrArg LocationObj.name h
    simp only at hn
    exact absurd hn (by decide)

/-- C5 (amended): the geofence resolver does return a candidate whose
rounded distance is within the radius and minimal over all candidates
with coordinates — but on ties the LAST-encountered candidate in input
order wins, not the first: appending a candidate whose distance is less
than or equal to every earlier candidate's distance (and within the
radius) makes that appended candidate the result. -/
theorem C5_amended_min_distance_last_tie :
    (∀ (lat lon radius : ℝ) (objs : List LocationObj) (l : LocationObj) (d : ℝ),
      detect_location_from_coordinates (some lat) (some lon) objs radius =
        (some l, some d) →
      d ≤ radius ∧
      (l ∈ objs ∧ ∃ la lo, l.latitude = some la ∧ l.longitude = some lo ∧
        d = round2 (haversineKm lat lon la lo)) ∧
      (∀ c ∈ objs, ∀ la lo, c.latitude = some la → c.longitude = some lo →
        d ≤ round2 (haversineKm lat lon la lo))) ∧
    (∀ (lat lon radius : ℝ) (objs : List LocationObj) (c : LocationObj)
      (la lo : ℝ),
      c.latitude = some la → c.longitude = some lo →
      round2 (haversineKm lat lon la lo) ≤ radius →
      (∀ c' ∈ objs, ∀ la' lo', c'.latitude = some la' → c'.longitude = some lo' →
        round2 (haversineKm lat lon la lo) ≤ round2 (haversineKm lat lon la' lo')) →
      detect_location_from_coordinates (some lat) (some lon) (objs ++ [c]) radius =
        (some c, some (round2 (haversineKm lat lon la lo)))) := by
  constructor
  · intro lat lon radius objs l d hdet
    simp only [detect_location_from_coordinates] at hdet
    rcases hres : detectClosest lat lon objs none radius with ⟨optL, rd⟩
    rw [hres] at hdet
    rcases optL with _ | l'
    · simp at hdet
    · simp only [Prod.mk.injEq, Option.some.injEq] at hdet
      obtain ⟨rfl, rfl⟩ := hdet
      refine ⟨?_, ?_, ?_⟩
      · have h := detectClosest_le lat lon objs none radius
        rw [hres] at h
        exact h
      · have h3 := detectClosest_result lat lon objs none radius
        rw [hres] at h3
        rcases h3 with ⟨ha, _⟩ | ⟨c, hc, la, lo, hcla, hclo, hc1, hc2⟩
        · exact absurd ha (by simp)
        · simp only [Option.some.injEq] at hc1
          subst hc1
          exact ⟨hc, la, lo, hcla, hclo, hc2⟩
      · intro c hc la lo hcla hclo
        have h := detectClosest_min lat lon objs none radius c hc la lo hcla hclo
        rw [hres] at h
        exact h
  · intro lat lon radius objs c la lo hcla hclo hrad hmin
    have hdc : round2 (haversineKm lat lon la lo) ≤
        (detectClosest lat lon objs none radius).2 := by
      rcases detectClosest_result lat lon objs none radius with
        ⟨_, h2⟩ | ⟨c', hc', la', lo', hla', hlo', _, h2⟩
      · rw [h2]
        exact hrad
      · rw [h2]
        exact hmin c' hc' la' lo' hla' hlo'
    simp only [detect_location_from_coordinates, detectClosest_append]
    rw [show detectClosest lat lon [c]
        (detectClosest lat lon objs none radius).1
        (detectClosest lat lon objs none radius).2 =
        (some c, round2 (haversineKm lat lon la lo)) by
      simp [detectClosest, hcla, hclo, calculate_distance, hdc]]

/-! ## C6: the 50 m boundary, after rounding -/

/-- C6 counterexample: a candidate at the true haversine distance
0.0501 km (50.1 m) from the query point is INCLUDED by the resolver at
the default 0.05 km radius, because calculate_distance rounds to 2
decimal places first (0.0501 rounds to 0.05, and 0.05 <= 0.05), whereas
the claim says a candidate at 50.1 m is excluded. -/
theorem C6_counterexample_50_1m_included :
    detect_location_from_coordinates (some 0) (some 0)
      [⟨"X", some 0, some (501 / 10000 * 180 / (6371 * Real.pi))⟩] (5 / 100) =
      (some ⟨"X", some 0, some (501 / 10000 * 180 / (6371 * Real.pi))⟩,
        some (5 / 100)) := by
  have hd : calculate_distance (some 0) (some 0) (some 0)
      (some (501 / 10000 * 180 / (6371 * Real.pi))) = some (5 / 100) := by
    rw [calc_dist_equator (501 / 10000) (by norm_num) (by norm_num), round2_00501]
  exact detect_singleton_in "X" _ _ _ hd (by norm_num)

/-- C6 (amended): a candidate at exactly 0.05 km (50 m) is included (the
comparison is inclusive), and a candidate at 0.0501 km (50.1 m) is ALSO
included, because distances are rounded to 2 decimal places (10 m
granularity) before the comparison: round2 0.0501 = 0.05.  Exclusion
takes effect once the rounded distance exceeds the radius: a candidate
at 0.056 km (56 m) rounds to 0.06 km and is rejected. -/
theorem C6_amended_boundary_after_rounding :
    detect_location_from_coordinates (some 0) (some 0)
      [⟨"E", some 0, some (5 / 100 * 180 / (6371 * Real.pi))⟩] (5 / 100) =
      (some ⟨"E", some 0, some (5 / 100 * 180 / (6371 * Real.pi))⟩,
        some (5 / 100)) ∧
    detect_location_from_coordinates (some 0) (some 0)
      [⟨"F", some 0, some (501 / 10000 * 180 / (6371 * Real.pi))⟩] (5 / 100) =
      (some ⟨"F", some 0, some (501 / 10000 * 180 / (6371 * Real.pi))⟩,
        some (5 / 100)) ∧
    detect_location_from_coordinates (some 0) (some 0)
      [⟨"G", some 0, some (7 / 125 * 180 / (6371 * Real.pi))⟩] (5 / 100) =
      (none, none) ∧
    round2 ((501 : ℝ) / 10000) = 5 / 100 := by
  have hd50 : calculate_distance (some 0) (some 0) (some 0)
      (some (5 / 100 * 180 / (6371 * Real.pi))) = some (5 / 100) := by
    rw [calc_dist_equator (5 / 100) (by norm_num) (by norm_num), round2_005]
  have hd501 : calculate_distance (some 0) (some 0) (some 0)
      (some (501 / 10000 * 180 / (6371 * Real.pi))) = some (5 / 100) := by
    rw [calc_dist_equator (501 / 10000) (by norm_num) (by norm_num), round2_00501]
  have hd56 : calculate_distance (some 0) (some 0) (some 0)
      (some (7 / 125 * 180 / (6371 * Real.pi))) = some (6 / 100) := by
    rw [calc_dist_equator (7 / 125) (by norm_num) (by norm_num), round2_0056]
  refine ⟨?_, ?_, ?_, round2_00501⟩
  · exact detect_singleton_in "E" _ _ _ hd50 (by norm_num)
  · exact detect_singleton_in "F" _ _ _ hd501 (by norm_num)
  · exact detect_singleton_out "G" _ _ _ hd56 (by norm_num)

/-! ## Helper lemmas: face distances on one-dimensional encodings -/

lemma faceDistance_nonneg (k q : List ℝ) : 0 ≤ faceDistance k q :=
  Real.sqrt_nonneg _

lemma faceDistance_single (a b : ℝ) (h : b ≤ a) :
    faceDistance [a] [b] = a - b := by
  unfold faceDistance
  rw [show (List.zipWith (fun u v => (u - v) ^ 2) [a] [b]).sum = (a - b) ^ 2 by simp]
  exact Real.sqrt_sq (by linarith)

/-! ## C7: the reported confidence -/

/-- C7: for every distance a successful match can carry (the match
condition of compare_faces is distance <= 0.45, and a Euclidean distance
is nonnegative), the confidence the handler reports — round(1 - d, 2)
with no clamping in the source — coincides with the spec's clamped
version round2 (clamp [0,1] (1 - d)), and lies within [0, 1]: on
distances in [0, 0.45] the clamp is the identity, and the bounds survive
the rounding. -/
theorem C7_confidence_clamped_equal_and_bounded :
    ∀ known query : List ℝ, faceDistance known query ≤ 45 / 100 →
      confidenceOf (faceDistance known query) =
        confidenceSpec (faceDistance known query) ∧
      0 ≤ confidenceOf (faceDistance known query) ∧
      confidenceOf (faceDistance known query) ≤ 1 := by
  intro k q h
  have h0 : 0 ≤ faceDistance k q := faceDistance_nonneg k q
  have e1 : min 1 (1 - faceDistance k q) = 1 - faceDistance k q :=
    min_eq_right (by linarith)
  have e2 : max 0 (1 - faceDistance k q) = 1 - faceDistance k q :=
    max_eq_right (by linarith)
  refine ⟨?_, ?_, ?_⟩
  · rw [confidenceOf, confidenceSpec, e1, e2]
  · exact round2_nonneg (by linarith)
  · exact round2_le_one (by linarith)

/-- C7 witness: the theorem at the concrete match of an encoding with
itself (distance 0, confidence 1). -/
theorem C7_confidence_witness :
    confidenceOf (faceDistance [0] [0]) = confidenceSpec (faceDistance [0] [0]) ∧
    0 ≤ confidenceOf (faceDistance [0] [0]) ∧
    confidenceOf (faceDistance [0] [0]) ≤ 1 :=
  C7_confidence_clamped_equal_and_bounded [0] [0]
    (by rw [faceDistance_single 0 0 le_rfl]; norm_num)

/-! ## C1: which candidate the matcher returns -/

/-- C1 (amended): the matching step selects the FIRST candidate in pool
order whose distance to the query is at most the tolerance 0.45
(inclusive comparison), not the minimum-distance candidate: matches is
the list of booleans (distance <= 0.45) in pool order and
matches.index(True) is the first hit.  A match is declared exactly when
some candidate is within 0.45.  The last conjunct shows the selection on
a concrete pool whose first candidate (distance 0.4) is farther than its
second (distance 0.1). -/
theorem C1_amended_first_below_tolerance_wins :
    (∀ (known : List (List ℝ)) (q : List ℝ) (i : ℕ), i < known.length →
      (∀ j, j < i → ¬ faceDistance (known.getD j []) q ≤ 45 / 100) →
      faceDistance (known.getD i []) q ≤ 45 / 100 →
      (compareFaces known q (45 / 100)).indexOf true = i) ∧
    (∀ (known : List (List ℝ)) (q : List ℝ),
      true ∈ compareFaces known q (45 / 100) ↔
        ∃ k ∈ known, faceDistance k q ≤ 45 / 100) ∧
    (compareFaces [[2 / 5], [1 / 10]] [0] (45 / 100)).indexOf true = 0 := by
  refine ⟨?_, ?_, ?_⟩
  · intro known q i
    induction known generalizing i with
    | nil => intro hi; exact absurd hi (by simp)
    | cons k rest ih =>
      intro hi hprev hcur
      cases i with
      | zero =>
        have hk : decide (faceDistance k q ≤ 45 / 100) = true :=
          decide_eq_true (by simpa using hcur)
        simp [compareFaces, List.indexOf_cons, hk]
      | succ i =>
        have h0 : decide (faceDistance k q ≤ 45 / 100) = false :=
          decide_eq_false (by simpa using hprev 0 (Nat.succ_pos i))
        have hrec := ih i (by simpa using hi)
          (fun j hj => by simpa using hprev (j + 1) (Nat.succ_lt_succ hj))
          (by simpa using hcur)
        simp only [compareFaces, List.map_cons] at hrec ⊢
        simp [List.indexOf_cons, h0, hrec]
  · intro known q
    simp [compareFaces, List.mem_map]
  · have d1 : faceDistance [2 / 5] [0] = 2 / 5 := by
      have := faceDistance_single (2 / 5) 0 (by norm_num)
      simpa using this
    have hb1 : ((2 : ℝ) / 5) ≤ 45 / 100 := by norm_num
    simp [compareFaces, d1, hb1, List.indexOf_cons]

/-- C1 counterexample: a pool of two candidates at distances 0.4 and 0.1
from the query, both below tolerance.  The minimum-distance candidate is
"B" (0.1), yet the scan matches "A" — the first candidate whose distance
is within 0.45 — with confidence round(1 - 0.4, 2) = 0.6.  The fourth
conjunct refutes the strictness half of the claim: a single candidate at
distance exactly 0.45 is matched (the comparison is inclusive), where
the claim requires strictly-below-tolerance. -/
theorem C1_counterexample_not_min_distance :
    (faceAttendancePost (some [0]) [⟨1, "A", [2 / 5]⟩, ⟨2, "B", [1 / 10]⟩] [] 0).1 =
      ScanOutcome.success "checkin" "A" (3 / 5) ∧
    faceDistance [1 / 10] [0] < faceDistance [2 / 5] [0] ∧
    faceDistance [1 / 10] [0] ≤ 45 / 100 ∧
    (faceAttendancePost (some [0]) [⟨3, "C", [9 / 20]⟩] [] 0).1 =
      ScanOutcome.success "checkin" "C" (11 / 20) := by
  have d1 : faceDistance [2 / 5] [0] = 2 / 5 := by
    have := faceDistance_single (2 / 5) 0 (by norm_num)
    simpa using this
  have d2 : faceDistance [1 / 10] [0] = 1 / 10 := by
    have := faceDistance_single (1 / 10) 0 (by norm_num)
    simpa using this
  have d3 : faceDistance [9 / 20] [0] = 9 / 20 := by
    have := faceDistance_single (9 / 20) 0 (by norm_num)
    simpa using this
  have hcf : compareFaces [[2 / 5], [1 / 10]] [0] (45 / 100) = [true, true] := by
    norm_num [compareFaces, d1, d2]
  have hcf3 : compareFaces [[9 / 20]] [0] (45 / 100) = [true] := by
    norm_num [compareFaces, d3]
  have conf1 : confidenceOf ((2 : ℝ) / 5) = 3 / 5 := by
    rw [confidenceOf, show (1 : ℝ) - 2 / 5 = 3 / 5 by norm_num]
    have := round2_eq_of_eq_intCast ((3 : ℝ) / 5) 60 (by norm_num)
    rw [this]
    norm_num
  have conf3 : confidenceOf ((9 : ℝ) / 20) = 11 / 20 := by
    rw [confidenceOf, show (1 : ℝ) - 9 / 20 = 11 / 20 by norm_num]
    have := round2_eq_of_eq_intCast ((11 : ℝ) / 20) 55 (by norm_num)
    rw [this]
    norm_num
  refine ⟨?_, ?_, ?_, ?_⟩
  · simp only [faceAttendancePost, List.map_cons, List.map_nil]
    rw [hcf]
    simp [logsToday, attendanceDecision, hasCheckin, hasCheckout,
      List.indexOf_cons, d1, conf1]
  · rw [d1, d2]
    norm_num
  · rw [d2]
    norm_num
  · simp only [faceAttendancePost, List.map_cons, List.map_nil]
    rw [hcf3]
    simp [logsToday, attendanceDecision, hasCheckin, hasCheckout,
      List.indexOf_cons, d3, conf3]

end Facereg
